import Mathlib

/-!
Shallow embedding of the question-generation tool (src/3.py) for
specification checking.  Python strings are modelled as `String`/`List Char`,
Python whitespace (`str.strip`, regex `\s`) by the ASCII whitespace
characters, and Python `re` operations by explicit recursive functions on
character lists.  GUI side effects (dialogs, signals) are modelled as
explicit result values.
-/

/-!  Theorems for the claims. -/

/-- ASCII fragment of Python whitespace: the characters matched by `\s`
and stripped by `str.strip()`. -/
def pySpace (c : Char) : Bool :=
  c == ' ' || c == '\t' || c == '\n' || c == '\r' || c == '\x0b' || c == '\x0c'

/-- Last character of a character list, `none` on the empty list
(Python `s.endswith(c)` is `lastChar s.data == some c`). -/
def lastChar : List Char → Option Char
  | [] => none
  | [c] => some c
  | _ :: c :: cs => lastChar (c :: cs)

/-- Remove trailing characters satisfying `p` (Python `str.rstrip(chars)`). -/
def dropTrailWhile (p : Char → Bool) : List Char → List Char
  | [] => []
  | c :: cs =>
    match dropTrailWhile p cs with
    | [] => if p c then [] else [c]
    | r => c :: r

/-- Python `str.rstrip()` on character lists. -/
def dropTrailWs (l : List Char) : List Char := dropTrailWhile pySpace l

/-- Python `str.strip()` on character lists: drop leading and trailing
whitespace. -/
def pyStrip (l : List Char) : List Char := dropTrailWs (l.dropWhile pySpace)

/-- Python `re.sub(r"\s+", " ", ·)`: each maximal whitespace run becomes a
single space.  The flag records whether the previous character was
whitespace (so the current run has already emitted its space). -/
def subWsAux (prevSpace : Bool) : List Char → List Char
  | [] => []
  | c :: cs =>
    if pySpace c then
      if prevSpace then subWsAux true cs
      else ' ' :: subWsAux true cs
    else c :: subWsAux false cs

/-- `re.sub(r"\s+", " ", s)` on character lists. -/
def subWs (l : List Char) : List Char := subWsAux false l

/-- `re.sub(r"\s+", " ", (q or "").strip())` from `_ensure_15` and
`parse_topics` call sites: strip, then collapse whitespace runs. -/
def normalizeChars (l : List Char) : List Char := subWs (pyStrip l)

/-- String wrapper of `normalizeChars`. -/
def normStr (s : String) : String := String.mk (normalizeChars s.data)

/-- ASCII lower-casing, modelling Python `str.lower()` on the ASCII
strings (question text, hex digests) this program compares. -/
def pyLower (l : List Char) : List Char := l.map Char.toLower

/-- String wrapper of `pyLower`. -/
def pyLowerS (s : String) : String := String.mk (pyLower s.data)

/-- `s.endswith("?")` for the claims: the last character is a question
mark. -/
def endsQ (l : List Char) : Bool := lastChar l == some '?'

/-- The fixed fallback question `_ensure_15` pads with (src/3.py:3064). -/
def fallbackQuestion : String :=
  "How could this topic affect an everyday situation at home, work, or school?"

/-- `_ensure_15` (src/3.py:3059-3065): normalize and keep the non-blank
entries, truncate to 15, then pad with `fallbackQuestion` up to 15. -/
def _ensure_15 (qs : List String) : List String :=
  let cleaned := (qs.filter (fun q => !(pyStrip q.data).isEmpty)).map normStr
  let truncated := if cleaned.length > 15 then cleaned.take 15 else cleaned
  truncated ++ List.replicate (15 - truncated.length) fallbackQuestion

/-- Python `str.splitlines()` on character lists, for the line separators
occurring in this program (`\n`, `\r`, `\r\n`); no trailing empty line. -/
def splitlinesAux (acc : List Char) : List Char → List (List Char)
  | [] => if acc.isEmpty then [] else [acc.reverse]
  | '\r' :: '\n' :: cs => acc.reverse :: splitlinesAux [] cs
  | '\n' :: cs => acc.reverse :: splitlinesAux [] cs
  | '\r' :: cs => acc.reverse :: splitlinesAux [] cs
  | c :: cs => splitlinesAux (c :: acc) cs

/-- `text.splitlines()`. -/
def pySplitlines (l : List Char) : List (List Char) := splitlinesAux [] l

/-- Match of `re.match(r'^\s*(\d+)[\.\)]\s+(.*)\?$', s)` against a whole
line, returning group 2 (the text between the numbering and the final
question mark).  Maximal-munch is equivalent to the regex here because the
tail `(.*)\?$` only constrains the final character. -/
def matchNumbered (s : List Char) : Option (List Char) :=
  let r0 := s.dropWhile pySpace
  let ds := r0.takeWhile Char.isDigit
  if ds.isEmpty then none
  else
    match r0.drop ds.length with
    | [] => none
    | c :: r1 =>
      if c == '.' || c == ')' then
        let ws := r1.takeWhile pySpace
        if ws.isEmpty then none
        else
          let body := r1.drop ws.length
          if lastChar body == some '?' then some body.dropLast else none
      else none

/-- Match of `re.match(r'^[\-\*•]\s+(.*)\?$', s)`, returning group 1. -/
def matchBullet (s : List Char) : Option (List Char) :=
  match s with
  | [] => none
  | c :: r1 =>
    if c == '-' || c == '*' || c == '•' then
      let ws := r1.takeWhile pySpace
      if ws.isEmpty then none
      else
        let body := r1.drop ws.length
        if lastChar body == some '?' then some body.dropLast else none
    else none

/-- The first loop of `parse_numbered_questions` (src/3.py:1327-1332):
per line, strip it, try the numbered pattern then the bullet pattern, and
append `group.strip() + "?"`. -/
def lineExtract (text : List Char) : List (List Char) :=
  (pySplitlines text).filterMap (fun line =>
    let s := pyStrip line
    match matchNumbered s with
    | some g => some (pyStrip g ++ ['?'])
    | none =>
      match matchBullet s with
      | some g => some (pyStrip g ++ ['?'])
      | none => none)

/-- Leftmost match length of `\s*\d+[\.\)]\s+` at the head of `l`
(`none` when the pattern does not match at this position). -/
def matchSplitPat (l : List Char) : Option Nat :=
  let a := l.takeWhile pySpace
  let r1 := l.drop a.length
  let ds := r1.takeWhile Char.isDigit
  if ds.isEmpty then none
  else
    match r1.drop ds.length with
    | [] => none
    | c :: r2 =>
      if c == '.' || c == ')' then
        let ws := r2.takeWhile pySpace
        if ws.isEmpty then none
        else some (a.length + ds.length + 1 + ws.length)
      else none

/-- Scan for leftmost non-overlapping matches of `\s*\d+[\.\)]\s+` and cut
the text there.  The fuel argument only bounds the number of scanning
steps; each step consumes at least one character (a pattern match is at
least three characters long), so fuel equal to the initial text length is
always sufficient and the function computes `re.split`. -/
def splitNumAux : Nat → List Char → List Char → List (List Char)
  | 0, acc, _ => [acc.reverse]
  | fuel + 1, acc, l =>
    match matchSplitPat l with
    | some k => acc.reverse :: splitNumAux fuel [] (l.drop k)
    | none =>
      match l with
      | [] => [acc.reverse]
      | c :: cs => splitNumAux fuel (c :: acc) cs

/-- `re.split(r'\s*\d+[\.\)]\s+', text)`. -/
def reSplitNum (l : List Char) : List (List Char) := splitNumAux l.length [] l

/-- The fallback branch of `parse_numbered_questions` (src/3.py:1333-1336):
split the whole text on number markers and keep stripped parts ending in
a question mark. -/
def fallbackExtract (text : List Char) : List (List Char) :=
  (reSplitNum text).filterMap (fun part =>
    let c := pyStrip part
    if lastChar c == some '?' then some c else none)

/-- One entry of the cleaning loop (src/3.py:1338-1341): collapse
whitespace, strip, strip straight/curly quotes, rstrip, and force a final
question mark. -/
def cleanStep (q : List Char) : List Char :=
  let q1 := subWs q
  let q2 := pyStrip q1
  let q3 := dropTrailWhile (fun c => c == '"' || c == '”')
    (q2.dropWhile (fun c => c == '"' || c == '”'))
  let q4 := dropTrailWs q3
  if lastChar q4 == some '?' then q4
  else dropTrailWhile (fun c => c == '.' || c == '!' || c == ' ') q4 ++ ['?']

/-- The de-duplicating loop of `parse_numbered_questions`
(src/3.py:1337-1343): clean each entry, skip entries whose lower-case form
was already seen. -/
def cleanLoop : List (List Char) → List (List Char) → List (List Char)
  | [], _ => []
  | q :: rest, seen =>
    let q1 := cleanStep q
    if pyLower q1 ∈ seen then cleanLoop rest seen
    else q1 :: cleanLoop rest (pyLower q1 :: seen)

/-- `parse_numbered_questions` (src/3.py:1325-1344). -/
def parse_numbered_questions (text : String) (max_items : Nat) : List String :=
  let out := lineExtract text.data
  let out := if out.isEmpty then fallbackExtract text.data else out
  (cleanLoop (out.take max_items) []).map (fun l => String.mk l)

/-- Scanner for `re.findall(r"\d+", v)` followed by `int(...)`:
`cur` is the value of the digit run currently being read. -/
def findallNumsAux : Option Nat → List Char → List Nat
  | cur, [] => match cur with | some n => [n] | none => []
  | cur, c :: cs =>
    if Char.isDigit c then
      findallNumsAux (some (cur.getD 0 * 10 + (c.toNat - ('0').toNat))) cs
    else
      match cur with
      | some n => n :: findallNumsAux none cs
      | none => findallNumsAux none cs

/-- `re.findall(r"\d+", v)` followed by `int(...)` on each run: the list
of maximal decimal-digit runs of `v`, as numbers. -/
def findallNums (l : List Char) : List Nat := findallNumsAux none l

/-- `version_tuple` (src/3.py:724-726): the tuple of integers appearing in
the version string, `(0,)` when there are none (`v or "0"` maps the empty
string to `"0"` first). -/
def version_tuple (v : String) : List Nat :=
  let src := if v == "" then "0" else v
  let nums := findallNums src.data
  if nums.isEmpty then [0] else nums

/-- Python `<` on integer tuples (lexicographic, shorter tuple loses on a
tie prefix). -/
def tupLt : List Nat → List Nat → Bool
  | _, [] => false
  | [], _ :: _ => true
  | a :: as, b :: bs =>
    if a < b then true
    else if a == b then tupLt as bs
    else false

/-- Python `<=` on integer tuples. -/
def tupLe (x y : List Nat) : Bool := tupLt x y || x == y

/-- The update manifest (src/3.py:1009): fields read with
`m.get("version", "0")`, `m.get("url")`, `m.get("sha256")`; the model
carries the already-defaulted values. -/
structure Manifest where
  version : String
  url : String
  sha256 : Option String

/-- Observable effects of one `check_for_updates` call
(src/3.py:1000-1046), up to the point where the download worker is
started.  `flagAfter` is the value of the global `UPDATE_IN_PROGRESS`
when the call returns. -/
structure CheckResult where
  retVal : Bool
  flagAfter : Bool
  fetched : Bool
  busyInfoShown : Bool
  upToDateInfoShown : Bool
  offered : Bool
  downloadStarted : Bool
deriving DecidableEq

/-- `check_for_updates` (src/3.py:1000-1046) as a function of the global
flag, the manifest-fetch outcome, whether the user accepts the update
dialog, and the running version.  Dialogs and the download thread are
recorded as booleans. -/
def check_for_updates (flag : Bool) (show_updater_pane : Bool)
    (fetch : Except String Manifest) (accepted : Bool) (current : String) :
    CheckResult :=
  if flag then
    { retVal := false, flagAfter := flag, fetched := false,
      busyInfoShown := true, upToDateInfoShown := false,
      offered := false, downloadStarted := false }
  else
    match fetch with
    | .error _ =>
      { retVal := false, flagAfter := false, fetched := true,
        busyInfoShown := false, upToDateInfoShown := false,
        offered := false, downloadStarted := false }
    | .ok m =>
      if tupLe (version_tuple m.version) (version_tuple current) then
        { retVal := false, flagAfter := false, fetched := true,
          busyInfoShown := false, upToDateInfoShown := !show_updater_pane,
          offered := false, downloadStarted := false }
      else if !accepted then
        { retVal := false, flagAfter := false, fetched := true,
          busyInfoShown := false, upToDateInfoShown := false,
          offered := true, downloadStarted := false }
      else
        { retVal := true, flagAfter := true, fetched := true,
          busyInfoShown := false, upToDateInfoShown := false,
          offered := true, downloadStarted := true }

/-- Effects of the `on_done` download callback inside `check_for_updates`
(src/3.py:1026-1036): `digest` is the value `sha256_of_file(path)` would
compute for the downloaded file (the hashing itself is file I/O and is
passed in as data). -/
structure DoneResult where
  replaced : Bool
  flagAfter : Bool
  mismatchErrorShown : Bool
deriving DecidableEq

/-- The `on_done` callback: `if sha:` (src/3.py:1028) is a Python
truthiness test on `m.get("sha256")`, false both for an absent field
(`None`) and for an empty string, so digest verification runs only for a
non-empty `sha256`; otherwise the file is handed to
`begin_update_replace` unverified.  `sha.getD ""` merges the two falsy
cases exactly as truthiness does for an optional string. -/
def upd_on_done (sha : Option String) (digest : String) : DoneResult :=
  let s := sha.getD ""
  if s == "" then
    { replaced := true, flagAfter := true, mismatchErrorShown := false }
  else if !(pyLowerS digest == pyLowerS s) then
    { replaced := false, flagAfter := false, mismatchErrorShown := true }
  else
    { replaced := true, flagAfter := true, mismatchErrorShown := false }

/-- The `on_err` download callback (src/3.py:1038-1039): close the
progress dialog, show the error, clear the global flag. -/
def upd_on_err (_msg : String) : DoneResult :=
  { replaced := false, flagAfter := false, mismatchErrorShown := false }

/-- Effects of `BackgroundUpdateChecker.run` (src/3.py:981-995):
whether `update_available` was emitted and the value emitted on
`check_completed` (none when nothing was emitted). -/
structure BgResult where
  emittedAvailable : Bool
  completed : Option Bool
deriving DecidableEq

/-- `BackgroundUpdateChecker.run`: emit `update_available` exactly when
the manifest version tuple is strictly greater than the running one. -/
def background_run (enabled : Bool) (fetch : Except String Manifest)
    (current : String) : BgResult :=
  if !enabled then { emittedAvailable := false, completed := none }
  else
    match fetch with
    | .error _ => { emittedAvailable := false, completed := some false }
    | .ok m =>
      if tupLt (version_tuple current) (version_tuple m.version) then
        { emittedAvailable := true, completed := some true }
      else
        { emittedAvailable := false, completed := some false }

/-- The four DOCX→PDF converters of src/3.py. -/
inductive Converter
  | reportlab
  | docx2pdf
  | word_com
  | libreoffice
deriving DecidableEq

/-- Error message raised by `convert_docx_to_pdf` when ReportLab is not
installed (src/3.py:2430-2436). -/
def reportlabMissingMsg : String :=
  "ReportLab library is not installed.\n\nTo fix this issue:\n1. Install ReportLab: pip install reportlab\n2. Restart the application after installation\n\nThis provides self-contained PDF generation without external dependencies."

/-- Error message raised when neither ReportLab nor docx2pdf is available
(src/3.py:2438-2445). -/
def bothMissingMsg : String :=
  "Neither ReportLab nor docx2pdf are available.\n\nTo fix this issue:\n1. Install ReportLab: pip install reportlab (recommended)\n2. Or install docx2pdf: pip install docx2pdf (requires Word)\n3. Restart the application after installation\n\nReportLab provides self-contained PDF generation."

/-- Combined error message when both methods fail for other reasons
(src/3.py:2447-2452). -/
def combinedFailMsg (e e2 : String) : String :=
  "PDF conversion failed with both methods:\n\nReportLab error: " ++ e
    ++ "\ndocx2pdf error: " ++ e2
    ++ "\n\nPlease install ReportLab for self-contained PDF generation:\npip install reportlab"

/-- Whether `pat` is a prefix of the second list (helper for Python's
substring test). -/
def startsWithL : List Char → List Char → Bool
  | [], _ => true
  | _ :: _, [] => false
  | a :: as, b :: bs => a == b && startsWithL as bs

/-- Python `pat in s` on character lists: `pat` occurs contiguously in
the second list. -/
def containsL (pat : List Char) : List Char → Bool
  | [] => startsWithL pat []
  | c :: cs => startsWithL pat (c :: cs) || containsL pat cs

/-- `convert_docx_to_pdf` (src/3.py:2415-2452) as a function of the
outcomes of the two converters it calls: try ReportLab, on failure try
docx2pdf, on failure raise one of three messages.  The result records
which converter produced the PDF. -/
def convert_docx_to_pdf (rl d2p : Except String Unit) :
    Except String Converter :=
  match rl with
  | .ok _ => .ok .reportlab
  | .error e =>
    match d2p with
    | .ok _ => .ok .docx2pdf
    | .error e2 =>
      if containsL ("ReportLab library not available").data e.data then
        .error reportlabMissingMsg
      else if containsL ("docx2pdf not available").data e2.data then
        .error bothMissingMsg
      else
        .error (combinedFailMsg e e2)

/-- `convert_docx_to_pdf_with_method` (src/3.py:2393-2413): `"auto"`
delegates to `convert_docx_to_pdf`; otherwise exactly the selected
converter runs and its error is wrapped. -/
def convert_docx_to_pdf_with_method (method : String)
    (rl d2p wcom lo : Except String Unit) : Except String Converter :=
  if method == "auto" then convert_docx_to_pdf rl d2p
  else
    let res : Except String Converter :=
      if method == "reportlab" then rl.map (fun _ => Converter.reportlab)
      else if method == "word_com" then wcom.map (fun _ => Converter.word_com)
      else if method == "docx2pdf" then d2p.map (fun _ => Converter.docx2pdf)
      else if method == "libreoffice" then lo.map (fun _ => Converter.libreoffice)
      else .error ("Unknown PDF conversion method: " ++ method)
    match res with
    | .ok c => .ok c
    | .error e =>
      .error ("Selected PDF method \x27" ++ method ++ "\x27 failed: " ++ e)

/-- The four-converter fallback chain the specification describes
(ReportLab, then docx2pdf, then Word COM, then LibreOffice, each tried
after the previous one fails).  Modelled from the spec's words for
comparison with `convert_docx_to_pdf`. -/
def convert_docx_to_pdf_spec_chain (rl d2p wcom lo : Except String Unit) :
    Except String Converter :=
  match rl with
  | .ok _ => .ok .reportlab
  | .error _ =>
    match d2p with
    | .ok _ => .ok .docx2pdf
    | .error _ =>
      match wcom with
      | .ok _ => .ok .word_com
      | .error _ =>
        match lo with
        | .ok _ => .ok .libreoffice
        | .error e => .error e

/-- Whether a conversion attempt produced a PDF. -/
def pdfOk : Except String Converter → Bool
  | .ok _ => true
  | .error _ => false

/-- The error dialog shown by both exporters when the template has no
"Discussion" paragraph (src/3.py:2501, 4013). -/
def missingDiscussionMsg : String :=
  "Could not find \"Discussion\" in template."

/-- The marker search shared by `export_docx` (src/3.py:4010-4012) and
`PreviewWorker.run` (src/3.py:2498-2500): index of the first paragraph
whose stripped text equals "Discussion" (the `for i, p in enumerate`
loop with `break`). -/
def findDiscussionIdx : List String → Option Nat
  | [] => none
  | p :: ps =>
    if pyStrip p.data == ("Discussion").data then some 0
    else (findDiscussionIdx ps).map (fun i => i + 1)

/-- Outcome of `export_docx` as observable to the user: an error dialog
(title, message) or a document saved to a path. -/
inductive ExportOutcome
  | errorDialog (title msg : String)
  | saved (path : String)
deriving DecidableEq

/-- The marker-dependent part of `App.export_docx` (src/3.py:4009-4013):
if no "Discussion" paragraph exists, show the error dialog and return
without saving; otherwise the rest of the export (modelled by the
continuation `rest`) runs with the found index. -/
def export_docx_run (paras : List String) (rest : Nat → ExportOutcome) :
    ExportOutcome :=
  match findDiscussionIdx paras with
  | none => .errorDialog ("Export Error") missingDiscussionMsg
  | some i => rest i

/-- Outcome of `PreviewWorker.run`: the signal it emits. -/
inductive PreviewOutcome
  | failed (msg : String)
  | done (key png : String)
deriving DecidableEq

/-- The marker-dependent part of `PreviewWorker.run` (src/3.py:2498-2502):
emit `failed` when the marker is missing, otherwise continue. -/
def preview_worker_run (paras : List String) (rest : Nat → PreviewOutcome) :
    PreviewOutcome :=
  match findDiscussionIdx paras with
  | none => .failed missingDiscussionMsg
  | some i => rest i

/-- The byte stream `_content_key` (src/3.py:3731-3734) feeds to SHA-1:
the unit title, the level, then `"|" + q` for each question. -/
def content_key_message (unit_title level : String) (questions : List String) :
    String :=
  unit_title ++ level ++ String.join (questions.map (fun q => "|" ++ q))

/-- `App._content_key`, parametric in the hash: the source applies
`hashlib.sha1(...).hexdigest()` to `content_key_message`; the hash is an
opaque external primitive and is passed in as a function. -/
def _content_key (sha1hex : String → String)
    (unit_title level : String) (questions : List String) : String :=
  sha1hex (content_key_message unit_title level questions)

/-- What the preview `on_done` handler does with a finished render. -/
inductive PreviewDoneAction
  | displayed (png : String)
  | removedStale (png : String)
deriving DecidableEq

/-- The `on_done` handler of `App._start_exact_render`
(src/3.py:3705-3723): display the PNG when the worker's key equals the
content key of the state current at completion time, otherwise delete the
temporary PNG. -/
def preview_on_done (k : String) (currentKey : String) (png : String) :
    PreviewDoneAction :=
  if k == currentKey then .displayed png else .removedStale png

/-- `App._apply_single` (src/3.py:3962-3963) on the questions list:
`self.questions[idx] = new_q`. -/
def _apply_single (questions : List String) (idx : Nat) (new_q : String) :
    List String :=
  questions.set idx new_q

/-- Hash function used to instantiate hash-parametric statements in
closed witnesses. -/
def idHash : String → String := fun s => s

/-- Whether an export outcome saved a document. -/
def exportSaved : ExportOutcome → Bool
  | .saved _ => true
  | .errorDialog _ _ => false

/-- Whether a preview outcome emitted `done`. -/
def previewDone : PreviewOutcome → Bool
  | .done _ _ => true
  | .failed _ => false

/-- Invariant of whitespace-collapsed text: every whitespace character is
a single `' '` not preceded (per the flag) or followed by further
whitespace. -/
def wellSpaced : Bool → List Char → Bool
  | _, [] => true
  | b, c :: cs =>
    if pySpace c then (!b && c == ' ') && wellSpaced true cs
    else wellSpaced false cs

/-- The list comprehension of `_ensure_15`:
`[re.sub(r"\s+", " ", (q or "").strip()) for q in qs if (q or "").strip()]`. -/
def cleanedList (qs : List String) : List String :=
  (qs.filter (fun q => !(pyStrip q.data).isEmpty)).map normStr

example : _ensure_15 [] = List.replicate 15 fallbackQuestion := by decide

example :
    (_ensure_15 [" a   b? ", "  ", "c?"]).take 2 = ["a b?", "c?"] := by decide

example : pySplitlines ("a\nb\r\n\nc").data = [[ 'a'], ['b'], [], ['c']] := by
  decide

example : reSplitNum ("a? 1. b?").data = [[ 'a', '?'], ['b', '?']] := by decide

example :
    parse_numbered_questions ("1. What is  this?\n1) WHAT IS THIS?\n- Another?\nnoise") 15
      = ["What is this?", "Another?"] := by decide

example : parse_numbered_questions ("a? 1. b?") 15 = ["a?", "b?"] := by decide

example : version_tuple ("0.23") = [0, 23] := by decide

example : version_tuple ("1.0") = [1, 0] := by decide

example : version_tuple ("v1.2.3-beta4") = [1, 2, 3, 4] := by decide

example : version_tuple ("") = [0] := by decide

/-- C9: for every in-range index, `_apply_single` replaces exactly the
entry at that index: the result is the prefix before `idx`, then `new_q`,
then the suffix after `idx`, so every other entry, the order, and the
length are unchanged. -/
theorem apply_single_spec (questions : List String) (idx : Nat) (new_q : String)
    (h : idx < questions.length) :
    _apply_single questions idx new_q
        = questions.take idx ++ new_q :: questions.drop (idx + 1)
      ∧ (_apply_single questions idx new_q).length = questions.length
      ∧ (_apply_single questions idx new_q)[idx]? = some new_q := by
  refine ⟨?_, List.length_set questions idx new_q, List.getElem?_set_self h⟩
  unfold _apply_single
  rw [List.set_eq_take_append_cons_drop]
  simp [h]

/-- Closed instance of `apply_single_spec` at a concrete list and index. -/
theorem apply_single_spec_witness :
    (0 : Nat) < (["a?", "b?", "c?"] : List String).length
      ∧ (_apply_single ["a?", "b?", "c?"] 1 ("new?")
            = (["a?", "b?", "c?"] : List String).take 1
              ++ ("new?") :: (["a?", "b?", "c?"] : List String).drop 2
          ∧ (_apply_single ["a?", "b?", "c?"] 1 ("new?")).length
              = (["a?", "b?", "c?"] : List String).length
          ∧ (_apply_single ["a?", "b?", "c?"] 1 ("new?"))[1]? = some ("new?")) :=
  ⟨by decide, apply_single_spec ["a?", "b?", "c?"] 1 ("new?") (by decide)⟩

/-- C8: for every hash function (in the source, SHA-1), a finished render
is displayed exactly when its key equals the content key of the state
current at completion time, and a stale result is removed instead of
displayed. -/
theorem stale_preview_spec (sha1hex : String → String) (k png : String)
    (unit_title level : String) (questions : List String) :
    (preview_on_done k (_content_key sha1hex unit_title level questions) png
        = .displayed png
      ↔ k = _content_key sha1hex unit_title level questions)
    ∧ (k ≠ _content_key sha1hex unit_title level questions →
        preview_on_done k (_content_key sha1hex unit_title level questions) png
          = .removedStale png) := by
  unfold preview_on_done
  by_cases h : k = _content_key sha1hex unit_title level questions
  · simp [h]
  · simp [h]

/-- Closed instance of `stale_preview_spec`: a stale key is removed. -/
theorem stale_preview_spec_witness :
    ("stale") ≠ _content_key idHash ("Unit 1") ("B1") ["First?"]
      ∧ preview_on_done ("stale")
          (_content_key idHash ("Unit 1") ("B1") ["First?"]) ("p.png")
          = PreviewDoneAction.removedStale ("p.png") :=
  ⟨by decide,
    (stale_preview_spec idHash ("stale") ("p.png") ("Unit 1") ("B1")
      ["First?"]).2 (by decide)⟩

/-- C7: when no paragraph strips to "Discussion", `export_docx` shows the
error dialog and saves nothing, and `PreviewWorker.run` emits `failed`
with the same message instead of `done`, whatever the rest of either
pipeline would have done. -/
theorem missing_discussion_spec (paras : List String)
    (restE : Nat → ExportOutcome) (restP : Nat → PreviewOutcome)
    (h : paras.all (fun p => !(pyStrip p.data == ("Discussion").data)) = true) :
    export_docx_run paras restE
        = .errorDialog ("Export Error") missingDiscussionMsg
      ∧ exportSaved (export_docx_run paras restE) = false
      ∧ preview_worker_run paras restP = .failed missingDiscussionMsg
      ∧ previewDone (preview_worker_run paras restP) = false := by
  have hnone : findDiscussionIdx paras = none := by
    induction paras with
    | nil => rfl
    | cons p ps ih =>
      rw [List.all_cons, Bool.and_eq_true] at h
      obtain ⟨h1, h2⟩ := h
      rw [Bool.not_eq_true'] at h1
      simp [findDiscussionIdx, h1, ih h2]
  refine ⟨?_, ?_, ?_, ?_⟩ <;>
    simp [export_docx_run, preview_worker_run, hnone, exportSaved, previewDone]

/-- Closed instance of `missing_discussion_spec` on a template without a
"Discussion" paragraph. -/
theorem missing_discussion_spec_witness :
    ((["Intro", "Body"] : List String).all
        (fun p => !(pyStrip p.data == ("Discussion").data)) = true)
      ∧ (export_docx_run ["Intro", "Body"] (fun _ => ExportOutcome.saved ("out.docx"))
            = .errorDialog ("Export Error") missingDiscussionMsg
          ∧ exportSaved (export_docx_run ["Intro", "Body"]
              (fun _ => ExportOutcome.saved ("out.docx"))) = false
          ∧ preview_worker_run ["Intro", "Body"]
              (fun _ => PreviewOutcome.done ("k") ("p.png"))
              = .failed missingDiscussionMsg
          ∧ previewDone (preview_worker_run ["Intro", "Body"]
              (fun _ => PreviewOutcome.done ("k") ("p.png"))) = false) :=
  ⟨by decide,
    missing_discussion_spec ["Intro", "Body"]
      (fun _ => ExportOutcome.saved ("out.docx"))
      (fun _ => PreviewOutcome.done ("k") ("p.png")) (by decide)⟩

/-- C4 counterexample: a manifest that supplies `"sha256": ""` does
supply the field, yet `if sha:` (src/3.py:1028) is false for the empty
string, so the downloaded file replaces the executable with no digest
comparison and no error dialog even though the file's digest does not
match the supplied value. -/
theorem sha256_empty_field_cex :
    pyLowerS ("deadbeef") ≠ pyLowerS ("")
      ∧ (upd_on_done (some ("")) ("deadbeef")).replaced = true
      ∧ (upd_on_done (some ("")) ("deadbeef")).mismatchErrorShown = false :=
  ⟨by decide, rfl, rfl⟩

/-- C4 (amended): when the manifest supplies a non-empty `sha256` field,
the downloaded file's digest is compared case-insensitively against it
and the executable is replaced only if they match, a mismatch aborting
with the error dialog and no replacement; an absent or empty `sha256`
field skips verification and the file is installed without any digest
comparison. -/
theorem sha256_gate_nonempty_spec (s digest : String)
    (hs : (s == "") = false) :
    ((upd_on_done (some s) digest).replaced = true
      ↔ pyLowerS digest = pyLowerS s)
    ∧ (pyLowerS digest ≠ pyLowerS s →
        upd_on_done (some s) digest
          = { replaced := false, flagAfter := false, mismatchErrorShown := true })
    ∧ (upd_on_done (some ("")) digest).replaced = true
    ∧ (upd_on_done none digest).replaced = true := by
  refine ⟨?_, ?_, rfl, rfl⟩ <;>
    · unfold upd_on_done
      by_cases h : pyLowerS digest = pyLowerS s
      · simp [hs, h]
      · simp [hs, h]

/-- Closed instance of `sha256_gate_nonempty_spec`: digests differing
only in case pass the non-empty gate. -/
theorem sha256_gate_nonempty_spec_witness :
    (("abc123" : String) == "") = false
      ∧ ((upd_on_done (some ("abc123")) ("ABC123")).replaced = true
          ↔ pyLowerS ("ABC123") = pyLowerS ("abc123")) :=
  ⟨by decide, (sha256_gate_nonempty_spec ("abc123") ("ABC123") (by decide)).1⟩

/-- Python tuple comparison is a total order: `x <= y` is the negation of
`y < x`. -/
theorem tupLe_eq_not_tupLt : ∀ x y : List Nat, tupLe x y = !tupLt y x := by
  intro x
  induction x with
  | nil => intro y; cases y <;> simp [tupLe, tupLt]
  | cons a as ih =>
    intro y
    cases y with
    | nil => simp [tupLe, tupLt]
    | cons b bs =>
      rcases Nat.lt_trichotomy a b with hab | hab | hab
      · have h1 : ¬ b < a := by omega
        have h2 : ¬ b = a := by omega
        simp [tupLe, tupLt, hab, h1, h2]
      · subst hab
        have hx := ih bs
        simp [tupLe, tupLt] at hx ⊢
        exact hx
      · have h1 : ¬ a < b := by omega
        have h2 : ¬ a = b := by omega
        simp [tupLe, tupLt, hab, h1, h2]

/-- C6: a single global boolean guards "update in progress".  While set,
`check_for_updates` shows only the busy dialog and returns `false`
without fetching the manifest or starting a download (its result does not
depend on the fetch outcome or the user's answer); the flag is set
exactly on the accepted-update path, the failure callbacks (`on_err`, and
a checksum mismatch in `on_done`, which can only occur for a non-empty
manifest `sha256`) clear it, and with the flag clear a call proceeds to
fetch again. -/
theorem update_flag_spec (pane : Bool)
    (fetch fetch2 : Except String Manifest) (accepted accepted2 : Bool)
    (current : String) (m : Manifest) (msg s digest : String)
    (hnew : tupLe (version_tuple m.version) (version_tuple current) = false)
    (hs : (s == "") = false)
    (hmis : pyLowerS digest ≠ pyLowerS s) :
    check_for_updates true pane fetch accepted current
        = { retVal := false, flagAfter := true, fetched := false,
            busyInfoShown := true, upToDateInfoShown := false,
            offered := false, downloadStarted := false }
      ∧ check_for_updates true pane fetch accepted current
          = check_for_updates true pane fetch2 accepted2 current
      ∧ (check_for_updates false pane (.ok m) true current).flagAfter = true
      ∧ (check_for_updates false pane (.ok m) true current).downloadStarted = true
      ∧ (upd_on_err msg).flagAfter = false
      ∧ (upd_on_done (some s) digest).flagAfter = false
      ∧ (check_for_updates false pane fetch accepted current).fetched = true := by
  refine ⟨rfl, rfl, ?_, ?_, rfl, ?_, ?_⟩
  · simp [check_for_updates, hnew]
  · simp [check_for_updates, hnew]
  · simp [upd_on_done, hs, hmis]
  · cases fetch with
    | error e => rfl
    | ok m2 =>
      simp only [check_for_updates]
      by_cases h : tupLe (version_tuple m2.version) (version_tuple current) = true
      · simp [h]
      · simp [h]
        by_cases ha : accepted <;> simp [ha]

/-- Closed instance of `update_flag_spec`. -/
theorem update_flag_spec_witness :
    tupLe (version_tuple ("1.0")) (version_tuple ("0.23")) = false
      ∧ (("00aa" : String) == "") = false
      ∧ pyLowerS ("00ff") ≠ pyLowerS ("00aa")
      ∧ ((check_for_updates true false
            (.ok { version := ("1.0"), url := ("u"), sha256 := none })
            true ("0.23")).fetched = false
          ∧ (check_for_updates false false
              (.ok { version := ("1.0"), url := ("u"), sha256 := none })
              true ("0.23")).flagAfter = true
          ∧ (upd_on_done (some ("00aa")) ("00ff")).flagAfter = false) := by
  have h := update_flag_spec false
    (.ok { version := ("1.0"), url := ("u"), sha256 := none })
    (.error ("net down")) true false ("0.23")
    { version := ("1.0"), url := ("u"), sha256 := none }
    ("net err") ("00aa") ("00ff") (by decide) (by decide) (by decide)
  exact ⟨by decide, by decide, by decide,
    by rw [h.1], h.2.2.1, h.2.2.2.2.2.1⟩

/-- C3: `version_tuple` maps a version string to the tuple of integers in
it and tuple comparison orders `"0.23"` before `"1.0"`; the interactive
check offers the update dialog, and the background checker emits
`update_available`, exactly when the manifest tuple is strictly greater
than the running one, and otherwise the check reports up to date. -/
theorem version_ordering_update_gate (m : Manifest) (current : String)
    (pane accepted : Bool) :
    version_tuple ("0.23") = [0, 23]
      ∧ version_tuple ("1.0") = [1, 0]
      ∧ tupLt (version_tuple ("0.23")) (version_tuple ("1.0")) = true
      ∧ ((check_for_updates false pane (.ok m) accepted current).offered = true
          ↔ tupLt (version_tuple current) (version_tuple m.version) = true)
      ∧ ((background_run true (.ok m) current).emittedAvailable = true
          ↔ tupLt (version_tuple current) (version_tuple m.version) = true)
      ∧ (tupLt (version_tuple current) (version_tuple m.version) = false →
          (check_for_updates false pane (.ok m) accepted current).upToDateInfoShown
              = !pane
            ∧ (background_run true (.ok m) current).completed = some false) := by
  have hdual := tupLe_eq_not_tupLt (version_tuple m.version) (version_tuple current)
  refine ⟨by decide, by decide, by decide, ?_, ?_, ?_⟩
  · simp only [check_for_updates]
    by_cases h : tupLt (version_tuple current) (version_tuple m.version) = true
    · rw [h] at hdual; simp at hdual
      simp [hdual, h]
      by_cases ha : accepted <;> simp [ha]
    · rw [Bool.not_eq_true] at h
      rw [h] at hdual; simp at hdual
      simp [hdual, h]
  · simp only [background_run]
    by_cases h : tupLt (version_tuple current) (version_tuple m.version) = true
    · simp [h]
    · rw [Bool.not_eq_true] at h
      simp [h]
  · intro h
    rw [h] at hdual; simp at hdual
    constructor
    · simp [check_for_updates, hdual]
    · simp [background_run, h]

/-- Closed instance of `version_ordering_update_gate`. -/
theorem version_ordering_update_gate_witness :
    version_tuple ("0.23") = [0, 23]
      ∧ ((check_for_updates false false
            (.ok { version := ("1.0"), url := ("u"), sha256 := none })
            false ("0.23")).offered = true
          ↔ tupLt (version_tuple ("0.23")) (version_tuple ("1.0")) = true) :=
  ⟨(version_ordering_update_gate
      { version := ("1.0"), url := ("u"), sha256 := none } ("0.23")
      false false).1,
    (version_ordering_update_gate
      { version := ("1.0"), url := ("u"), sha256 := none } ("0.23")
      false false).2.2.2.1⟩

/-- C5 counterexample: with ReportLab and docx2pdf both failing but Word
COM and LibreOffice available, `convert_docx_to_pdf` still gives up with
an error, while the four-converter chain the spec describes would have
succeeded via Word COM. -/
theorem convert_fallback_four_cex :
    pdfOk (convert_docx_to_pdf (Except.error ("boom")) (Except.error ("boom2")))
        = false
      ∧ convert_docx_to_pdf_spec_chain (Except.error ("boom"))
          (Except.error ("boom2")) (Except.ok ()) (Except.ok ())
          = Except.ok Converter.word_com :=
  ⟨rfl, rfl⟩

/-- C5 (amended): the automatic fallback tries exactly two converters,
ReportLab then docx2pdf, and gives up with a user-facing message when
both fail; Word COM and LibreOffice are reachable only as the individually
selected method of `convert_docx_to_pdf_with_method`, never as automatic
fallbacks. -/
theorem convert_fallback_two_spec (e e2 : String)
    (rl d2p wcom lo : Except String Unit) :
    convert_docx_to_pdf (.ok ()) d2p = .ok .reportlab
      ∧ convert_docx_to_pdf (.error e) (.ok ()) = .ok .docx2pdf
      ∧ pdfOk (convert_docx_to_pdf (.error e) (.error e2)) = false
      ∧ convert_docx_to_pdf rl d2p ≠ .ok .word_com
      ∧ convert_docx_to_pdf rl d2p ≠ .ok .libreoffice
      ∧ convert_docx_to_pdf_with_method ("word_com") rl d2p (.ok ()) lo
          = .ok .word_com
      ∧ convert_docx_to_pdf_with_method ("libreoffice") rl d2p wcom (.ok ())
          = .ok .libreoffice
      ∧ convert_docx_to_pdf_with_method ("auto") rl d2p wcom lo
          = convert_docx_to_pdf rl d2p := by
  refine ⟨rfl, rfl, ?_, ?_, ?_, rfl, rfl, rfl⟩
  · simp only [convert_docx_to_pdf]
    split
    · rfl
    · split
      · rfl
      · rfl
  · cases rl with
    | ok u => simp [convert_docx_to_pdf]
    | error a =>
      cases d2p with
      | ok u => simp [convert_docx_to_pdf]
      | error b =>
        simp only [convert_docx_to_pdf]
        split
        · simp
        · split <;> simp
  · cases rl with
    | ok u => simp [convert_docx_to_pdf]
    | error a =>
      cases d2p with
      | ok u => simp [convert_docx_to_pdf]
      | error b =>
        simp only [convert_docx_to_pdf]
        split
        · simp
        · split <;> simp

/-! Normal-form lemmas about whitespace normalization, used for the
`_ensure_15` claims. -/

theorem lastChar_cons_ne_nil (c : Char) {l : List Char} (h : l ≠ []) :
    lastChar (c :: l) = lastChar l := by
  cases l with
  | nil => exact absurd rfl h
  | cons d ds => rfl

theorem lastChar_isSome_of_ne_nil : ∀ {l : List Char}, l ≠ [] →
    ∃ c, lastChar l = some c := by
  intro l h
  induction l with
  | nil => exact absurd rfl h
  | cons x xs ih =>
    cases xs with
    | nil => exact ⟨x, rfl⟩
    | cons y ys =>
      obtain ⟨c, hc⟩ := ih (by simp)
      exact ⟨c, by rw [lastChar_cons_ne_nil x (by simp), hc]⟩

theorem subWsAux_cons (b : Bool) (c : Char) (cs : List Char) :
    subWsAux b (c :: cs) =
      if pySpace c then
        (if b then subWsAux true cs else ' ' :: subWsAux true cs)
      else c :: subWsAux false cs := by
  cases b <;> by_cases h : pySpace c = true <;> simp [subWsAux, h]

theorem subWsAux_lastChar : ∀ (l : List Char) (b : Bool) {c : Char},
    lastChar l = some c → pySpace c = false →
    subWsAux b l ≠ [] ∧ lastChar (subWsAux b l) = some c := by
  intro l
  induction l with
  | nil => intro b c h _; simp [lastChar] at h
  | cons x xs ih =>
    intro b c hl hc
    cases xs with
    | nil =>
      have hx : x = c := by simpa [lastChar] using hl
      subst hx
      rw [subWsAux_cons, if_neg (by simp [hc])]
      exact ⟨by simp, rfl⟩
    | cons y ys =>
      have hl2 : lastChar (y :: ys) = some c := hl
      by_cases hx : pySpace x = true
      · cases b with
        | true =>
          rw [subWsAux_cons, if_pos hx, if_pos rfl]
          exact ih true hl2 hc
        | false =>
          have h1 := ih true hl2 hc
          rw [subWsAux_cons, if_pos hx, if_neg (by simp)]
          refine ⟨by simp, ?_⟩
          rw [lastChar_cons_ne_nil ' ' h1.1]
          exact h1.2
      · have h1 := ih false hl2 hc
        rw [subWsAux_cons, if_neg hx]
        refine ⟨by simp, ?_⟩
        rw [lastChar_cons_ne_nil x h1.1]
        exact h1.2

theorem dropTrailWhile_lastChar_not (p : Char → Bool) :
    ∀ (l : List Char) {c : Char},
    lastChar (dropTrailWhile p l) = some c → p c = false := by
  intro l
  induction l with
  | nil => intro c h; simp [dropTrailWhile, lastChar] at h
  | cons x xs ih =>
    intro c h
    rcases hxs : dropTrailWhile p xs with _ | ⟨y, ys⟩
    · rw [dropTrailWhile, hxs] at h
      by_cases hp : p x = true
      · simp [hp, lastChar] at h
      · rw [Bool.not_eq_true] at hp
        have : x = c := by simpa [hp, lastChar] using h
        subst this
        exact hp
    · rw [dropTrailWhile, hxs] at h
      rw [lastChar_cons_ne_nil x (by simp)] at h
      rw [← hxs] at h
      exact ih h

theorem dropTrailWhile_noop (p : Char → Bool) :
    ∀ (l : List Char) {c : Char},
    lastChar l = some c → p c = false → dropTrailWhile p l = l := by
  intro l
  induction l with
  | nil => intro c h _; simp [lastChar] at h
  | cons x xs ih =>
    intro c hl hc
    cases xs with
    | nil =>
      have hx : x = c := by simpa [lastChar] using hl
      subst hx
      simp [dropTrailWhile, hc]
    | cons y ys =>
      have hl2 : lastChar (y :: ys) = some c := hl
      have hxs := ih hl2 hc
      rw [dropTrailWhile, hxs]

theorem dropWhile_head_false (p : Char → Bool) :
    ∀ (l : List Char) {c : Char} {cs : List Char},
    l.dropWhile p = c :: cs → p c = false := by
  intro l
  induction l with
  | nil => intro c cs h; simp [List.dropWhile] at h
  | cons x xs ih =>
    intro c cs h
    rw [List.dropWhile_cons] at h
    by_cases hp : p x = true
    · rw [if_pos hp] at h
      exact ih h
    · rw [Bool.not_eq_true] at hp
      rw [if_neg (by simp [hp])] at h
      cases h
      exact hp

theorem dropTrailWhile_head (p : Char → Bool) :
    ∀ (l : List Char) {c : Char} {cs : List Char},
    dropTrailWhile p l = c :: cs → ∃ cs0, l = c :: cs0 := by
  intro l
  induction l with
  | nil => intro c cs h; simp [dropTrailWhile] at h
  | cons x xs ih =>
    intro c cs h
    rcases hxs : dropTrailWhile p xs with _ | ⟨y, ys⟩
    · rw [dropTrailWhile, hxs] at h
      by_cases hp : p x = true
      · simp [hp] at h
      · rw [Bool.not_eq_true] at hp
        simp [hp] at h
        exact ⟨xs, by rw [h.1]⟩
    · rw [dropTrailWhile, hxs] at h
      cases h
      exact ⟨xs, rfl⟩

theorem pyStrip_head_false : ∀ (l : List Char) {c : Char} {cs : List Char},
    pyStrip l = c :: cs → pySpace c = false := by
  intro l c cs h
  obtain ⟨cs0, h0⟩ := dropTrailWhile_head pySpace (l.dropWhile pySpace) h
  exact dropWhile_head_false pySpace l h0

theorem pyStrip_lastChar_false : ∀ (l : List Char) {c : Char},
    lastChar (pyStrip l) = some c → pySpace c = false := by
  intro l c h
  exact dropTrailWhile_lastChar_not pySpace (l.dropWhile pySpace) h

theorem wellSpaced_subWsAux : ∀ (l : List Char) (b : Bool),
    wellSpaced b (subWsAux b l) = true := by
  intro l
  induction l with
  | nil => intro b; rfl
  | cons x xs ih =>
    intro b
    by_cases hx : pySpace x = true
    · cases b with
      | true =>
        rw [subWsAux_cons, if_pos hx, if_pos rfl]
        exact ih true
      | false =>
        rw [subWsAux_cons, if_pos hx, if_neg (by simp)]
        simp [wellSpaced, pySpace, ih true]
    · rw [subWsAux_cons, if_neg hx]
      simp [wellSpaced, hx, ih false]

theorem subWsAux_noop_of_wellSpaced : ∀ (l : List Char) (b : Bool),
    wellSpaced b l = true → subWsAux b l = l := by
  intro l
  induction l with
  | nil => intro b _; rfl
  | cons x xs ih =>
    intro b h
    by_cases hx : pySpace x = true
    · have h2 : b = false ∧ x = ' ' ∧ wellSpaced true xs = true := by
        simpa [wellSpaced, hx, and_assoc] using h
      obtain ⟨hb, hxc, htail⟩ := h2
      subst hb
      rw [subWsAux_cons, if_pos hx, if_neg (by simp), ih true htail, hxc]
    · have h2 : wellSpaced false xs = true := by
        simpa [wellSpaced, hx] using h
      rw [subWsAux_cons, if_neg hx, ih false h2]

theorem subWs_ne_nil {l : List Char} (h : l ≠ []) : subWs l ≠ [] := by
  cases l with
  | nil => exact absurd rfl h
  | cons c cs =>
    unfold subWs
    rw [subWsAux_cons]
    by_cases hc : pySpace c = true
    · rw [if_pos hc, if_neg (by simp)]
      simp
    · rw [if_neg hc]
      simp

theorem pyStrip_normalizeChars (l : List Char) :
    pyStrip (normalizeChars l) = normalizeChars l := by
  rcases hn : normalizeChars l with _ | ⟨c, cs⟩
  · rfl
  · -- head is not whitespace
    have hm : ∃ d ds, pyStrip l = d :: ds := by
      rcases hm : pyStrip l with _ | ⟨d, ds⟩
      · rw [normalizeChars, subWs, hm] at hn
        simp [subWsAux] at hn
      · exact ⟨d, ds, rfl⟩
    obtain ⟨d, ds, hm⟩ := hm
    have hd : pySpace d = false := pyStrip_head_false l hm
    have hhead : normalizeChars l = d :: subWsAux false ds := by
      rw [normalizeChars, subWs, hm, subWsAux_cons, if_neg (by simp [hd])]
    -- last character is not whitespace
    have hlast : ∃ e, lastChar (normalizeChars l) = some e ∧ pySpace e = false := by
      obtain ⟨e, he⟩ := lastChar_isSome_of_ne_nil (l := pyStrip l) (by rw [hm]; simp)
      have hef : pySpace e = false := pyStrip_lastChar_false l he
      obtain ⟨_, h2⟩ := subWsAux_lastChar (pyStrip l) false he hef
      exact ⟨e, h2, hef⟩
    obtain ⟨e, he, hef⟩ := hlast
    have hc : pySpace c = false := by
      rw [hn] at hhead
      cases hhead
      exact hd
    rw [hn] at he
    unfold pyStrip
    rw [List.dropWhile_cons, if_neg (by simp [hc])]
    exact dropTrailWhile_noop pySpace (c :: cs) he hef

theorem normalizeChars_idem (l : List Char) :
    normalizeChars (normalizeChars l) = normalizeChars l := by
  have h1 : normalizeChars (normalizeChars l)
      = subWs (normalizeChars l) := by
    rw [normalizeChars, pyStrip_normalizeChars]
  rw [h1]
  unfold normalizeChars subWs
  exact subWsAux_noop_of_wellSpaced _ false
    (wellSpaced_subWsAux (pyStrip l) false)

theorem normStr_idem (s : String) : normStr (normStr s) = normStr s := by
  unfold normStr
  exact congrArg String.mk (normalizeChars_idem s.data)

theorem dropWhile_lastChar (p : Char → Bool) :
    ∀ (l : List Char) {c : Char}, lastChar l = some c → p c = false →
    l.dropWhile p ≠ [] ∧ lastChar (l.dropWhile p) = some c := by
  intro l
  induction l with
  | nil => intro c h _; simp [lastChar] at h
  | cons x xs ih =>
    intro c hl hc
    cases xs with
    | nil =>
      have hx : x = c := by simpa [lastChar] using hl
      subst hx
      rw [List.dropWhile_cons, if_neg (by simp [hc])]
      exact ⟨by simp, rfl⟩
    | cons y ys =>
      have hl2 : lastChar (y :: ys) = some c := hl
      by_cases hp : p x = true
      · rw [List.dropWhile_cons, if_pos hp]
        exact ih hl2 hc
      · rw [List.dropWhile_cons, if_neg hp]
        refine ⟨by simp, ?_⟩
        rw [lastChar_cons_ne_nil x (by simp)]
        exact hl2

theorem endsQ_normalizeChars {l : List Char} (h : endsQ l = true) :
    endsQ (normalizeChars l) = true := by
  have h1 : lastChar l = some '?' := by simpa [endsQ] using h
  have hq : pySpace '?' = false := by decide
  obtain ⟨hne, hdw⟩ := dropWhile_lastChar pySpace l h1 hq
  have hstrip : pyStrip l = l.dropWhile pySpace := by
    unfold pyStrip dropTrailWs
    exact dropTrailWhile_noop pySpace _ hdw hq
  have hl2 : lastChar (pyStrip l) = some '?' := by rw [hstrip]; exact hdw
  obtain ⟨_, h2⟩ := subWsAux_lastChar (pyStrip l) false hl2 hq
  simpa [endsQ, normalizeChars, subWs] using h2

theorem ensure_15_eq (qs : List String) :
    _ensure_15 qs =
      (cleanedList qs).take 15
        ++ List.replicate (15 - ((cleanedList qs).take 15).length)
            fallbackQuestion := by
  simp only [_ensure_15, cleanedList]
  by_cases h :
      ((qs.filter (fun q => !(pyStrip q.data).isEmpty)).map normStr).length > 15
  · rw [if_pos h]
  · rw [if_neg h, List.take_of_length_le (by omega)]

theorem ensure_15_length (qs : List String) : (_ensure_15 qs).length = 15 := by
  rw [ensure_15_eq]
  have h := List.length_take_le 15 (cleanedList qs)
  simp only [List.length_append, List.length_replicate]
  omega

theorem mem_ensure_15 {qs : List String} {r : String} (h : r ∈ _ensure_15 qs) :
    (∃ q, q ∈ qs ∧ (pyStrip q.data).isEmpty = false ∧ r = normStr q)
      ∨ r = fallbackQuestion := by
  rw [ensure_15_eq] at h
  rcases List.mem_append.mp h with h1 | h2
  · left
    have h3 := List.take_subset 15 (cleanedList qs) h1
    unfold cleanedList at h3
    obtain ⟨q, hq, hqr⟩ := List.mem_map.mp h3
    obtain ⟨hmem, hfil⟩ := List.mem_filter.mp hq
    exact ⟨q, hmem, by simpa using hfil, hqr.symm⟩
  · right
    exact List.eq_of_mem_replicate h2

/-- C1: `_ensure_15` returns exactly 15 entries: the non-blank entries
whitespace-normalized in their original order, truncated to the first 15,
padded with the fixed fallback question; and when every non-empty entry
of the input ends with a question mark so does every entry of the
result. -/
theorem ensure_15_spec (qs : List String) :
    ((_ensure_15 qs).length = 15
      ∧ _ensure_15 qs =
          (cleanedList qs).take 15
            ++ List.replicate (15 - ((cleanedList qs).take 15).length)
                fallbackQuestion)
    ∧ (qs.all (fun q => q == "" || endsQ q.data) = true →
        (_ensure_15 qs).all (fun q => endsQ q.data) = true) := by
  refine ⟨⟨ensure_15_length qs, ensure_15_eq qs⟩, ?_⟩
  intro h
  rw [List.all_eq_true] at h ⊢
  intro r hr
  rcases mem_ensure_15 hr with ⟨q, hmem, hfil, rfl⟩ | rfl
  · have hq := h q hmem
    rcases Bool.or_eq_true _ _ |>.mp hq with he | hq2
    · -- q is the empty string, contradicting the filter condition
      have : q = "" := by simpa using he
      subst this
      simp [pyStrip, dropTrailWs, dropTrailWhile] at hfil
    · exact endsQ_normalizeChars hq2
  · decide

/-- Closed instance of `ensure_15_spec` on an input whose non-empty
entries all end with a question mark. -/
theorem ensure_15_spec_witness :
    (["One?", "", "Two  three?"] : List String).all
        (fun q => q == "" || endsQ q.data) = true
      ∧ (_ensure_15 ["One?", "", "Two  three?"]).all
          (fun q => endsQ q.data) = true :=
  ⟨by decide, (ensure_15_spec ["One?", "", "Two  three?"]).2 (by decide)⟩

/-- C10: `_ensure_15` is idempotent: its output entries are non-blank,
already whitespace-normalized, and exactly 15, so a second pass keeps
them all and changes nothing. -/
theorem ensure_15_idempotent (qs : List String) :
    _ensure_15 (_ensure_15 qs) = _ensure_15 qs := by
  have key : ∀ r ∈ _ensure_15 qs,
      (pyStrip r.data).isEmpty = false ∧ normStr r = r := by
    intro r hr
    rcases mem_ensure_15 hr with ⟨q, _, hne, rfl⟩ | rfl
    · constructor
      · have hd : (normStr q).data = normalizeChars q.data := rfl
        rw [hd, pyStrip_normalizeChars]
        have hnn : normalizeChars q.data ≠ [] := by
          apply subWs_ne_nil
          intro hcon
          rw [hcon] at hne
          simp at hne
        simpa [List.isEmpty_iff] using hnn
      · exact normStr_idem q
    · exact ⟨by decide, by decide⟩
  rw [ensure_15_eq (_ensure_15 qs)]
  have hcl : cleanedList (_ensure_15 qs) = _ensure_15 qs := by
    unfold cleanedList
    rw [List.filter_eq_self.mpr (fun r hr => by simp [(key r hr).1])]
    have hmap : List.map normStr (_ensure_15 qs)
        = List.map id (_ensure_15 qs) :=
      List.map_congr_left (fun r hr => (key r hr).2)
    rw [hmap, List.map_id]
  rw [hcl]
  have hlen : (_ensure_15 qs).length = 15 := ensure_15_length qs
  rw [List.take_of_length_le (le_of_eq hlen)]
  simp [hlen]

theorem endsQ_append_qm : ∀ l : List Char, endsQ (l ++ ['?']) = true := by
  intro l
  induction l with
  | nil => decide
  | cons x xs ih =>
    have hne : xs ++ ['?'] ≠ [] := by simp
    simp only [endsQ, List.cons_append]
    rw [lastChar_cons_ne_nil x hne]
    exact ih

theorem cleanStep_endsQ (q : List Char) : endsQ (cleanStep q) = true := by
  simp only [cleanStep]
  split
  · rename_i hcond
    simpa [endsQ] using hcond
  · exact endsQ_append_qm _

theorem cleanLoop_length_le :
    ∀ (l seen : List (List Char)), (cleanLoop l seen).length ≤ l.length := by
  intro l
  induction l with
  | nil => intro seen; simp [cleanLoop]
  | cons q rest ih =>
    intro seen
    simp only [cleanLoop]
    split
    · have := ih seen
      simp
      omega
    · have := ih (pyLower (cleanStep q) :: seen)
      simp
      omega

theorem cleanLoop_endsQ :
    ∀ (l seen : List (List Char)), ∀ r ∈ cleanLoop l seen, endsQ r = true := by
  intro l
  induction l with
  | nil => intro seen r hr; simp [cleanLoop] at hr
  | cons q rest ih =>
    intro seen r hr
    simp only [cleanLoop] at hr
    split at hr
    · exact ih seen r hr
    · rcases List.mem_cons.mp hr with h1 | h2
      · rw [h1]; exact cleanStep_endsQ q
      · exact ih _ r h2

theorem cleanLoop_not_mem_seen :
    ∀ (l seen : List (List Char)), ∀ r ∈ cleanLoop l seen,
    pyLower r ∉ seen := by
  intro l
  induction l with
  | nil => intro seen r hr; simp [cleanLoop] at hr
  | cons q rest ih =>
    intro seen r hr
    simp only [cleanLoop] at hr
    split at hr
    · exact ih seen r hr
    · rcases List.mem_cons.mp hr with h1 | h2
      · rw [h1]; assumption
      · have h3 := ih _ r h2
        intro hcon
        exact h3 (List.mem_cons_of_mem _ hcon)

theorem cleanLoop_pairwise :
    ∀ (l seen : List (List Char)),
    (cleanLoop l seen).Pairwise (fun a b => pyLower a ≠ pyLower b) := by
  intro l
  induction l with
  | nil => intro seen; simp [cleanLoop]
  | cons q rest ih =>
    intro seen
    simp only [cleanLoop]
    split
    · exact ih seen
    · rw [List.pairwise_cons]
      refine ⟨?_, ih _⟩
      intro b hb hcon
      have h3 := cleanLoop_not_mem_seen rest (pyLower (cleanStep q) :: seen) b hb
      exact h3 (by rw [← hcon]; exact List.mem_cons_self _ _)

/-- C2 counterexample: the text `"a? 1. b?"` has no numbered or bulleted
line ending in `?` (the line loop extracts nothing), yet
`parse_numbered_questions` returns two entries, recovered by the
whole-text fallback split. -/
theorem parse_numbered_questions_line_only_cex :
    lineExtract ("a? 1. b?").data = []
      ∧ parse_numbered_questions ("a? 1. b?") 15 = ["a?", "b?"] :=
  ⟨by decide, by decide⟩

/-- C2 (amended): `parse_numbered_questions` returns at most `max_items`
entries, each ending in `?`, no two equal ignoring case; entries come
from the numbered/bulleted line patterns when any line matches, and
otherwise from splitting the whole text on number markers and keeping
fragments ending in `?`. -/
theorem parse_numbered_questions_spec (text : String) (max_items : Nat) :
    (parse_numbered_questions text max_items).length ≤ max_items
      ∧ (parse_numbered_questions text max_items).all
          (fun s => endsQ s.data) = true
      ∧ (parse_numbered_questions text max_items).Pairwise
          (fun a b => pyLowerS a ≠ pyLowerS b)
      ∧ parse_numbered_questions text max_items
          = (cleanLoop
              ((if (lineExtract text.data).isEmpty then fallbackExtract text.data
                else lineExtract text.data).take max_items) []).map
              (fun l => String.mk l) := by
  refine ⟨?_, ?_, ?_, rfl⟩
  · calc (parse_numbered_questions text max_items).length
        = (cleanLoop ((if (lineExtract text.data).isEmpty then
            fallbackExtract text.data else lineExtract text.data).take
            max_items) []).length := by
          simp [parse_numbered_questions]
      _ ≤ ((if (lineExtract text.data).isEmpty then fallbackExtract text.data
            else lineExtract text.data).take max_items).length :=
          cleanLoop_length_le _ _
      _ ≤ max_items := List.length_take_le _ _
  · rw [List.all_eq_true]
    intro s hs
    obtain ⟨r, hr, hrs⟩ := List.mem_map.mp hs
    rw [← hrs]
    exact cleanLoop_endsQ _ _ r hr
  · have hp := cleanLoop_pairwise
      ((if (lineExtract text.data).isEmpty then fallbackExtract text.data
        else lineExtract text.data).take max_items) []
    refine List.pairwise_map.mpr (List.Pairwise.imp ?_ hp)
    intro a b hab hcon
    apply hab
    have : (String.mk a).data = a := rfl
    have hd : pyLower a = pyLower b := by
      have h1 : pyLowerS (String.mk a) = String.mk (pyLower a) := rfl
      have h2 : pyLowerS (String.mk b) = String.mk (pyLower b) := rfl
      rw [h1, h2] at hcon
      exact congrArg String.data hcon
    exact hd
